import Mathlib

/-!
# Verification of the roulette wager-resolution engine

A shallow embedding of the Rust sources (`src/game/bets.rs`,
`src/game/wheel.rs`, `src/game/mod.rs`, `src/player.rs`) together with
theorems settling the specification claims.

Modelling conventions:
* Rust `u32` values are `Nat`s; every `u32` operation that can wrap
  (`*`, `+=`) is taken modulo `2^32` (release-mode wrapping semantics).
  `u32` subtraction only occurs behind an explicit balance check in the
  source, so it never underflows and is plain `Nat` subtraction.
* Rust `u8` pocket numbers are `Nat`s; all relevant code paths only
  compare them, so the 0..=255 bound is immaterial.
* Panicking paths and fallible constructors are modelled with `Option`.
* The random draw in `Wheel::spin` / `Game::spin_wheel_and_resolve` is
  modelled by passing the drawn pocket as an explicit parameter, per the
  injectable-randomness reading of the resolution step.
* `println!` calls are presentation only and are not modelled.
-/

namespace Roulette

/-- The modulus of Rust `u32` arithmetic. -/
def U32MOD : Nat := 4294967296

/-! ## `src/game/wheel.rs`: colors and pockets -/

/-- `Color` from `wheel.rs`: pocket colors; `Green` is reserved for zero. -/
inductive Color where
  | Red
  | Black
  | Green
deriving DecidableEq, Repr

/-- `Pocket` from `wheel.rs`: one pocket on the wheel. -/
structure Pocket where
  ticker : String
  display_name : String
  categories : List String
  number : Nat
  color : Color
deriving DecidableEq, Repr

/-! ## `src/game/bets.rs`: bet taxonomy, win predicate, payouts -/

/-- `BetType` from `bets.rs`: the closed sum of bet variants. -/
inductive BetType where
  | StraightUp (n : Nat)
  | Split (n1 n2 : Nat)
  | Street (n1 n2 n3 : Nat)
  | Corner (n1 n2 n3 n4 : Nat)
  | SixLine (n1 n2 n3 n4 n5 n6 : Nat)
  | Column (c : Nat)
  | Dozen (d : Nat)
  | Red
  | Black
  | Odd
  | Even
  | Low
  | High
deriving DecidableEq, Repr

/-- `Bet` from `bets.rs`: a bet variant paired with a stake amount. -/
structure Bet where
  bet_type : BetType
  amount : Nat
deriving DecidableEq, Repr

/-- `payout_multiplier` from `bets.rs`: odds per unit bet, excluding the
stake return. -/
def payout_multiplier (bet_type : BetType) : Nat :=
  match bet_type with
  | BetType.StraightUp _ => 35
  | BetType.Split _ _ => 17
  | BetType.Street _ _ _ => 11
  | BetType.Corner _ _ _ _ => 8
  | BetType.SixLine _ _ _ _ _ _ => 5
  | BetType.Column _ => 2
  | BetType.Dozen _ => 2
  | BetType.Red => 1
  | BetType.Black => 1
  | BetType.Odd => 1
  | BetType.Even => 1
  | BetType.Low => 1
  | BetType.High => 1

/-- `Bet::new` from `bets.rs`. The source panics when `amount == 0`;
the panic is modelled as `none`. No other validation is performed. -/
def Bet.new (bet_type : BetType) (amount : Nat) : Option Bet :=
  if amount = 0 then none else some ⟨bet_type, amount⟩

/-- `Bet::calculate_payout` from `bets.rs`:
`self.amount * payout_multiplier(&self.bet_type) + self.amount` in `u32`
arithmetic (the intermediate product and the sum both wrap, which
collapses to a single outer reduction mod `2^32`). -/
def Bet.calculate_payout (b : Bet) : Nat :=
  (b.amount * payout_multiplier b.bet_type + b.amount) % U32MOD

/-- `Bet::check_win` from `bets.rs`: whether the bet wins against the
winning pocket. Rust `==` on numbers/colors is rendered as `decide` of
the corresponding equality. -/
def Bet.check_win (b : Bet) (winning_pocket : Pocket) : Bool :=
  let wn := winning_pocket.number
  let wc := winning_pocket.color
  if wn = 0 then
    match b.bet_type with
    | BetType.StraightUp n => decide (n = 0)
    | _ => false
  else
    match b.bet_type with
    | BetType.StraightUp n => decide (wn = n)
    | BetType.Split n1 n2 => decide (wn = n1 ∨ wn = n2)
    | BetType.Street n1 n2 n3 => decide (wn = n1 ∨ wn = n2 ∨ wn = n3)
    | BetType.Corner n1 n2 n3 n4 =>
        decide (wn = n1 ∨ wn = n2 ∨ wn = n3 ∨ wn = n4)
    | BetType.SixLine n1 n2 n3 n4 n5 n6 =>
        decide (wn = n1 ∨ wn = n2 ∨ wn = n3 ∨ wn = n4 ∨ wn = n5 ∨ wn = n6)
    | BetType.Column col =>
        match col with
        | 1 => decide (wn % 3 = 1)
        | 2 => decide (wn % 3 = 2)
        | 3 => decide (wn % 3 = 0)
        | _ => false
    | BetType.Dozen doz =>
        match doz with
        | 1 => decide (1 ≤ wn ∧ wn ≤ 12)
        | 2 => decide (13 ≤ wn ∧ wn ≤ 24)
        | 3 => decide (25 ≤ wn ∧ wn ≤ 36)
        | _ => false
    | BetType.Red => decide (wc = Color.Red)
    | BetType.Black => decide (wc = Color.Black)
    | BetType.Odd => decide (wn % 2 ≠ 0)
    | BetType.Even => decide (wn % 2 = 0)
    | BetType.Low => decide (1 ≤ wn ∧ wn ≤ 18)
    | BetType.High => decide (19 ≤ wn ∧ wn ≤ 36)

/-! ## `src/player.rs`: balance account -/

/-- `Player` from `player.rs`. -/
structure Player where
  balance : Nat
deriving DecidableEq, Repr

/-- `Player::new` from `player.rs`. -/
def Player.new (starting_balance : Nat) : Player :=
  ⟨starting_balance⟩

/-- `Player::add_winnings` from `player.rs`: `self.balance += amount`
in `u32` arithmetic. -/
def Player.add_winnings (p : Player) (amount : Nat) : Player :=
  ⟨(p.balance + amount) % U32MOD⟩

/-- `Player::place_bet` from `player.rs`: debit `amount` when covered,
reporting success; on insufficient balance leave the balance unchanged
and report failure. The subtraction is guarded, so it cannot wrap. -/
def Player.place_bet (p : Player) (amount : Nat) : Player × Bool :=
  if p.balance < amount then (p, false)
  else (⟨p.balance - amount⟩, true)

/-- `Player::refund_bet` from `player.rs`: `self.balance += amount`
in `u32` arithmetic. -/
def Player.refund_bet (p : Player) (amount : Nat) : Player :=
  ⟨(p.balance + amount) % U32MOD⟩

/-! ## `src/game/mod.rs`: round ledger and round lifecycle

The `Wheel` field of `Game` only feeds the random draw, which is
modelled as the explicit pocket parameter of
`Game.spin_wheel_and_resolve`; the ledger/balance state is `Player`
plus `current_bets`. -/

/-- The mutable state of `Game` from `mod.rs` that the ledger
operations touch. -/
structure Game where
  player : Player
  current_bets : List Bet
deriving DecidableEq, Repr

/-- `Game::new` from `mod.rs`: a player with the starting balance and
an empty ledger. -/
def Game.new (starting_balance : Nat) : Game :=
  ⟨Player.new starting_balance, []⟩

/-- `Game::get_player_balance` from `mod.rs`. -/
def Game.get_player_balance (g : Game) : Nat :=
  g.player.balance

/-- `Game::place_bet` from `mod.rs`: delegate the stake reservation to
`Player::place_bet`; on success push the bet onto `current_bets`. -/
def Game.place_bet (g : Game) (b : Bet) : Game × Bool :=
  let r := g.player.place_bet b.amount
  if r.2 then ({ player := r.1, current_bets := g.current_bets ++ [b] }, true)
  else ({ player := r.1, current_bets := g.current_bets }, false)

/-- The `total_winnings` accumulation loop of
`Game::spin_wheel_and_resolve` in `mod.rs`: fold over the ledger,
adding `calculate_payout` (in `u32` arithmetic) for each winning bet. -/
def round_winnings (bets : List Bet) (winning_pocket : Pocket) : Nat :=
  bets.foldl
    (fun acc b =>
      if b.check_win winning_pocket then (acc + b.calculate_payout) % U32MOD
      else acc)
    0

/-- The `u32` accumulation of stake amounts, as in the `total_refund`
loop of `Game::clear_bets` and the `total_bet_amount` tally of
`Game::spin_wheel_and_resolve` in `mod.rs`; it is also the ledger
aggregate `totalStaked()`. -/
def total_staked (bets : List Bet) : Nat :=
  bets.foldl (fun acc b => (acc + b.amount) % U32MOD) 0

/-- `Game::spin_wheel_and_resolve` from `mod.rs`, with the randomly
drawn pocket passed explicitly. An empty ledger is refused (early
return, state untouched). Otherwise the total winnings are credited
when positive — the per-round wagered total is only printed, never
applied to the balance — and the ledger is cleared. -/
def Game.spin_wheel_and_resolve (g : Game) (winning_pocket : Pocket) : Game :=
  if g.current_bets.isEmpty then g
  else
    let total_winnings := round_winnings g.current_bets winning_pocket
    let player :=
      if 0 < total_winnings then g.player.add_winnings total_winnings
      else g.player
    { player := player, current_bets := [] }

/-- `Game::clear_bets` from `mod.rs`: refuse when the ledger is empty;
otherwise refund the accumulated stake total and empty the ledger. -/
def Game.clear_bets (g : Game) : Game :=
  if g.current_bets.isEmpty then g
  else
    { player := g.player.refund_bet (total_staked g.current_bets),
      current_bets := [] }

/-- Sequential placement of a list of bets through `Game::place_bet`,
as a betting loop performs it; stops at the first failure. -/
def Game.place_all (g : Game) (bets : List Bet) : Game × Bool :=
  match bets with
  | [] => (g, true)
  | b :: rest =>
    let r := g.place_bet b
    if r.2 then r.1.place_all rest else (r.1, false)

/-! ### Exact (unbounded) counterparts of the `u32` aggregates -/

/-- The mathematically exact payout `stake * multiplier + stake`,
without `u32` reduction. -/
def payoutExact (b : Bet) : Nat :=
  b.amount * payout_multiplier b.bet_type + b.amount

/-- The mathematically exact total winnings: the sum of exact payouts
of the winning ledger entries. -/
def winningsExact (bets : List Bet) (winning_pocket : Pocket) : Nat :=
  ((bets.filter (fun b => b.check_win winning_pocket)).map payoutExact).sum

/-- The mathematically exact total of the stakes in a ledger. -/
def stakesSum (bets : List Bet) : Nat :=
  (bets.map Bet.amount).sum

/-! ## `src/game/wheel.rs`: the wheel

`get_pocket_definitions` in the source builds a `HashMap` literal and
then iterates it, so the order of the definition list is unspecified;
only its length and its entry multiset are fixed. The list below uses
the source's textual order — every claim touching the wheel depends
only on the length and on the number/color fields, which are
overwritten from `wheel_order` and the color rule during construction.
One display name containing a punctuation mark uses a plain
transliteration. -/

/-- `Wheel::get_pocket_definitions` from `wheel.rs`: the 37 configured
pocket definitions, with placeholder `number := 0` and
`color := Color.Red` exactly as in the source. -/
def get_pocket_definitions : List Pocket := [
  ⟨"AAPL", "Apple Inc.", ["Magnificent Seven", "Technology", "S&P 500 Heavy A", "Growth Dozen A", "AAPL"], 0, Color.Red⟩,
  ⟨"MSFT", "Microsoft Corp.", ["Magnificent Seven", "Technology", "S&P 500 Heavy A", "Growth Dozen A", "MSFT"], 0, Color.Red⟩,
  ⟨"GOOGL", "Alphabet Inc.", ["Magnificent Seven", "Technology", "S&P 500 Heavy A", "Growth Dozen A", "GOOGL"], 0, Color.Red⟩,
  ⟨"AMZN", "Amazon.com Inc.", ["Magnificent Seven", "Technology", "S&P 500 Heavy A", "Growth Dozen A", "AMZN"], 0, Color.Red⟩,
  ⟨"NVDA", "NVIDIA Corp.", ["Magnificent Seven", "Technology", "S&P 500 Heavy A", "Growth Dozen A", "NVDA"], 0, Color.Red⟩,
  ⟨"META", "Meta Platforms Inc.", ["Magnificent Seven", "Technology", "S&P 500 Heavy A", "Growth Dozen A", "META"], 0, Color.Red⟩,
  ⟨"TSLA", "Tesla Inc.", ["Magnificent Seven", "Technology", "S&P 500 Heavy A", "Growth Dozen A", "TSLA"], 0, Color.Red⟩,
  ⟨"XOM", "Exxon Mobil Corp.", ["Oil & Gas Major", "Energy", "Value Focus B", "Value Dozen B", "XOM"], 0, Color.Red⟩,
  ⟨"CVX", "Chevron Corp.", ["Oil & Gas Major", "Energy", "Value Focus B", "Value Dozen B", "CVX"], 0, Color.Red⟩,
  ⟨"COP", "ConocoPhillips", ["Oil & Gas Major", "Energy", "Value Focus B", "Value Dozen B", "COP"], 0, Color.Red⟩,
  ⟨"2222.SR", "Saudi Aramco", ["Oil & Gas Major", "Energy", "Value Focus B", "Value Dozen B", "2222.SR"], 0, Color.Red⟩,
  ⟨"PTR", "PetroChina Co.", ["Oil & Gas Major", "Energy", "Value Focus B", "Value Dozen B", "PTR"], 0, Color.Red⟩,
  ⟨"JPM", "JPMorgan Chase & Co.", ["Big Finance", "Financials", "Blue Chip Dozen C", "S&P 500 Heavy A", "JPM"], 0, Color.Red⟩,
  ⟨"BRK-A", "Berkshire Hathaway Inc.", ["Big Finance", "Financials", "Blue Chip Dozen C", "S&P 500 Heavy A", "BRK-A"], 0, Color.Red⟩,
  ⟨"WFC", "Wells Fargo & Co.", ["Big Finance", "Financials", "Blue Chip Dozen C", "S&P 500 Heavy A", "WFC"], 0, Color.Red⟩,
  ⟨"V", "Visa Inc.", ["Big Finance", "Financials", "Blue Chip Dozen C", "S&P 500 Heavy A", "V"], 0, Color.Red⟩,
  ⟨"MA", "Mastercard Inc.", ["Big Finance", "Financials", "Blue Chip Dozen C", "S&P 500 Heavy A", "MA"], 0, Color.Red⟩,
  ⟨"PFE", "Pfizer Inc.", ["Pharma", "Healthcare", "Dividend Aristocrats", "PFE"], 0, Color.Red⟩,
  ⟨"JNJ", "Johnson & Johnson", ["Pharma", "Healthcare", "Dividend Aristocrats", "JNJ"], 0, Color.Red⟩,
  ⟨"UNH", "UnitedHealth Group", ["Pharma", "Healthcare", "Dividend Aristocrats", "UNH"], 0, Color.Red⟩,
  ⟨"GE", "General Electric", ["Industrial", "Dividend Aristocrats", "GE"], 0, Color.Red⟩,
  ⟨"IBM", "IBM Corp.", ["Legacy Tech", "Dividend Aristocrats", "IBM"], 0, Color.Red⟩,
  ⟨"INTC", "Intel Corp.", ["Legacy Tech", "Dividend Aristocrats", "INTC"], 0, Color.Red⟩,
  ⟨"CSCO", "Cisco Systems", ["Legacy Tech", "Dividend Aristocrats", "CSCO"], 0, Color.Red⟩,
  ⟨"T", "AT&T Inc.", ["Telecom", "Dividend Aristocrats", "T"], 0, Color.Red⟩,
  ⟨"VZ", "Verizon Communications", ["Telecom", "Dividend Aristocrats", "VZ"], 0, Color.Red⟩,
  ⟨"HD", "Home Depot", ["Retail", "Consumer", "Dividend Aristocrats", "HD"], 0, Color.Red⟩,
  ⟨"WMT", "Walmart Inc.", ["Retail", "Consumer", "Dividend Aristocrats", "WMT"], 0, Color.Red⟩,
  ⟨"KO", "Coca-Cola Co.", ["Retail", "Consumer", "Dividend Aristocrats", "KO"], 0, Color.Red⟩,
  ⟨"PEP", "PepsiCo Inc.", ["Retail", "Consumer", "Dividend Aristocrats", "PEP"], 0, Color.Red⟩,
  ⟨"PG", "Procter & Gamble", ["Retail", "Consumer", "Dividend Aristocrats", "PG"], 0, Color.Red⟩,
  ⟨"MCD", "McDonalds Corp.", ["Retail", "Consumer", "Dividend Aristocrats", "MCD"], 0, Color.Red⟩,
  ⟨"NKE", "Nike Inc.", ["Retail", "Consumer", "Dividend Aristocrats", "NKE"], 0, Color.Red⟩,
  ⟨"COST", "Costco Wholesale", ["Retail", "Consumer", "Dividend Aristocrats", "COST"], 0, Color.Red⟩,
  ⟨"F", "Ford Motor Co.", ["Automotive", "Dividend Aristocrats", "F"], 0, Color.Red⟩,
  ⟨"GM", "General Motors Co.", ["Automotive", "Dividend Aristocrats", "GM"], 0, Color.Red⟩,
  ⟨"RCSN", "Recession", ["Recession", "Recession", "RCSN"], 0, Color.Red⟩
]

/-- `red_numbers` from `Wheel::new` in `wheel.rs`. -/
def red_numbers : List Nat :=
  [1, 3, 5, 7, 9, 12, 14, 16, 18, 19, 21, 23, 25, 27, 30, 32, 34, 36]

/-- `wheel_order` from `Wheel::new` in `wheel.rs`: the 37 pocket
numbers in physical wheel order. -/
def wheel_order : List Nat :=
  [0, 32, 15, 19, 4, 21, 2, 25, 17, 34, 6, 27, 13, 36, 11, 30, 8, 23,
   10, 5, 24, 16, 33, 1, 20, 14, 31, 9, 22, 18, 29, 7, 28, 12, 35, 3, 26]

/-- The color assignment of `Wheel::new` in `wheel.rs`: `Green` for 0,
`Red` for the listed red numbers, `Black` otherwise. -/
def pocket_color (number : Nat) : Color :=
  if number = 0 then Color.Green
  else if red_numbers.contains number then Color.Red
  else Color.Black

/-- `Wheel` from `wheel.rs`. The source keeps both the `Vec` of
pockets and a `HashMap` keyed by number; since the map is populated
exactly from the vector (with pairwise distinct keys), lookup is
modelled as a search of the pocket list. -/
structure Wheel where
  pockets : List Pocket
deriving DecidableEq, Repr

/-- The pocket-construction loop of `Wheel::new` in `wheel.rs`: pair
each entry of `wheel_order` with the definition at the same index,
overwriting its number and color. -/
def build_pockets (pocket_defs : List Pocket) : List Pocket :=
  (wheel_order.zip pocket_defs).map
    (fun nd => { nd.2 with number := nd.1, color := pocket_color nd.1 })

/-- The body of `Wheel::new` from `wheel.rs`, parameterized by the
pocket definition list it consumes: the source aborts (here: `none`)
unless exactly 37 definitions are configured, then runs the
construction loop. -/
def Wheel.newFrom (pocket_defs : List Pocket) : Option Wheel :=
  if pocket_defs.length = 37 then some ⟨build_pockets pocket_defs⟩ else none

/-- `Wheel::new` from `wheel.rs`: construction from the configured
definitions. -/
def Wheel.new : Option Wheel :=
  Wheel.newFrom get_pocket_definitions

/-- `Wheel::get_pocket` from `wheel.rs`: lookup by pocket number
(the `HashMap` lookup, modelled over the pocket list). -/
def Wheel.get_pocket (w : Wheel) (number : Nat) : Option Pocket :=
  w.pockets.find? (fun p => p.number == number)

/-! ## Helper lemmas -/

/-- The exact payout fits in `u32` exactly when `stake * (m + 1)` does;
under that bound `calculate_payout` performs no reduction. -/
theorem calculate_payout_eq_exact (b : Bet)
    (h : b.amount * (payout_multiplier b.bet_type + 1) < U32MOD) :
    b.calculate_payout = b.amount * payout_multiplier b.bet_type + b.amount := by
  unfold Bet.calculate_payout
  have e : b.amount * payout_multiplier b.bet_type + b.amount
      = b.amount * (payout_multiplier b.bet_type + 1) := by ring
  rw [e]
  exact Nat.mod_eq_of_lt h

/-! ## Claim theorems -/

/-- Claim C1: a winning bet with stake `s` pays `s * m + s`, where the
multiplier `m` of its variant is 35 for straight-up, 17 for split, 11
for street, 8 for corner, 5 for six-line, 2 for column and dozen bets,
and 1 for red, black, odd, even, low and high; a losing bet is
credited nothing (appending a losing bet to the ledger leaves the
round winnings unchanged). The payout identity is exact whenever the
`u32` arithmetic does not wrap. -/
theorem C1_payout_rule :
    (∀ b : Bet, b.amount * (payout_multiplier b.bet_type + 1) < U32MOD →
      b.calculate_payout = b.amount * payout_multiplier b.bet_type + b.amount)
    ∧ (∀ n, payout_multiplier (BetType.StraightUp n) = 35)
    ∧ (∀ a b, payout_multiplier (BetType.Split a b) = 17)
    ∧ (∀ a b c, payout_multiplier (BetType.Street a b c) = 11)
    ∧ (∀ a b c d, payout_multiplier (BetType.Corner a b c d) = 8)
    ∧ (∀ a b c d e f, payout_multiplier (BetType.SixLine a b c d e f) = 5)
    ∧ (∀ c, payout_multiplier (BetType.Column c) = 2)
    ∧ (∀ d, payout_multiplier (BetType.Dozen d) = 2)
    ∧ payout_multiplier BetType.Red = 1
    ∧ payout_multiplier BetType.Black = 1
    ∧ payout_multiplier BetType.Odd = 1
    ∧ payout_multiplier BetType.Even = 1
    ∧ payout_multiplier BetType.Low = 1
    ∧ payout_multiplier BetType.High = 1
    ∧ (∀ (bets : List Bet) (b : Bet) (p : Pocket),
        b.check_win p = false →
        round_winnings (bets ++ [b]) p = round_winnings bets p) := by
  refine ⟨calculate_payout_eq_exact,
    fun _ => rfl, fun _ _ => rfl, fun _ _ _ => rfl, fun _ _ _ _ => rfl,
    fun _ _ _ _ _ _ => rfl, fun _ => rfl, fun _ => rfl,
    rfl, rfl, rfl, rfl, rfl, rfl, ?_⟩
  intro bets b p h
  simp [round_winnings, List.foldl_append, h]

/-- Closed instantiation of the hypotheses of `C1_payout_rule`. -/
theorem C1_payout_rule_witness :
    Bet.calculate_payout ⟨BetType.StraightUp 17, 100⟩ = 100 * 35 + 100
    ∧ round_winnings ([⟨BetType.Red, 5⟩] ++ [⟨BetType.Black, 7⟩])
        ⟨"KO", "Coca-Cola Co.", [], 1, Color.Red⟩
      = round_winnings [⟨BetType.Red, 5⟩] ⟨"KO", "Coca-Cola Co.", [], 1, Color.Red⟩ := by
  have h := C1_payout_rule
  exact ⟨h.1 ⟨BetType.StraightUp 17, 100⟩ (by decide),
    h.2.2.2.2.2.2.2.2.2.2.2.2.2.2 [⟨BetType.Red, 5⟩] ⟨BetType.Black, 7⟩
      ⟨"KO", "Coca-Cola Co.", [], 1, Color.Red⟩ (by decide)⟩

/-- Claim C2: on a zero outcome a bet wins exactly when it is a
straight-up bet naming 0; every other variant (all outer bets and all
multi-identifier inner bets) loses. -/
theorem C2_zero_outcome (b : Bet) (p : Pocket) (h : p.number = 0) :
    b.check_win p = true ↔ b.bet_type = BetType.StraightUp 0 := by
  obtain ⟨bt, amt⟩ := b
  obtain ⟨tk, dn, cats, n, c⟩ := p
  simp only at h
  subst h
  cases bt <;> simp [Bet.check_win]

/-- Closed instantiation of the hypothesis of `C2_zero_outcome`. -/
theorem C2_zero_outcome_witness :
    (Bet.check_win ⟨BetType.Red, 5⟩ ⟨"RCSN", "Recession", [], 0, Color.Green⟩ = true
      ↔ BetType.Red = BetType.StraightUp 0) := by
  exact C2_zero_outcome ⟨BetType.Red, 5⟩ ⟨"RCSN", "Recession", [], 0, Color.Green⟩ rfl

/-- Resolving with an empty ledger returns the state unchanged. -/
theorem spin_wheel_and_resolve_empty (g : Game) (p : Pocket)
    (h : g.current_bets = []) :
    g.spin_wheel_and_resolve p = g := by
  simp [Game.spin_wheel_and_resolve, h]

/-- Claim C7: resolving with an empty ledger is refused: the state —
balance and ledger alike — is returned unchanged, whatever pocket the
wheel would have produced, so the round stays in the accepting state. -/
theorem C7_empty_resolve_refused (g : Game) (p : Pocket)
    (h : g.current_bets = []) :
    g.spin_wheel_and_resolve p = g :=
  spin_wheel_and_resolve_empty g p h

/-- Closed instantiation of the hypothesis of
`C7_empty_resolve_refused`. -/
theorem C7_empty_resolve_refused_witness :
    (Game.new 50).spin_wheel_and_resolve ⟨"GE", "General Electric", [], 5, Color.Red⟩
      = Game.new 50 := by
  exact C7_empty_resolve_refused (Game.new 50)
    ⟨"GE", "General Electric", [], 5, Color.Red⟩ rfl

/-- Claim C8 (code divergence): `Bet::new` accepts a column bet with an
index outside `{1,2,3}` (it validates only the stake), and `check_win`
then resolves such a bet as a silent loss through its default-false
arms, at construction time rejecting nothing; likewise for an
out-of-range dozen index. -/
theorem C8_default_loss_for_malformed :
    Bet.new (BetType.Column 7) 10 = some ⟨BetType.Column 7, 10⟩
    ∧ Bet.check_win ⟨BetType.Column 7, 10⟩
        ⟨"AAPL", "Apple Inc.", [], 7, Color.Red⟩ = false
    ∧ Bet.new (BetType.Dozen 4) 10 = some ⟨BetType.Dozen 4, 10⟩
    ∧ Bet.check_win ⟨BetType.Dozen 4, 10⟩
        ⟨"AAPL", "Apple Inc.", [], 7, Color.Red⟩ = false := by
  refine ⟨by decide, by decide, by decide, by decide⟩

/-- Claim C10: `u32` payout arithmetic is exact below the wrap bound —
in particular for any straight-up stake up to 119304647 — and wraps
beyond it, both in `calculate_payout` and in the balance credit of
`add_winnings`. -/
theorem C10_u32_arithmetic :
    (∀ b : Bet, b.amount * (payout_multiplier b.bet_type + 1) < U32MOD →
      b.calculate_payout = b.amount * payout_multiplier b.bet_type + b.amount)
    ∧ (∀ s, s ≤ 119304647 →
        Bet.calculate_payout ⟨BetType.StraightUp 17, s⟩ = s * 35 + s)
    ∧ Bet.calculate_payout ⟨BetType.StraightUp 17, 2147483648⟩
        ≠ 2147483648 * 35 + 2147483648
    ∧ ((Player.new 4294967295).add_winnings 1).balance ≠ 4294967295 + 1 := by
  refine ⟨calculate_payout_eq_exact, ?_, by decide, by decide⟩
  intro s hs
  apply calculate_payout_eq_exact
  show s * (35 + 1) < U32MOD
  unfold U32MOD
  omega

/-- Closed instantiation of the hypotheses of `C10_u32_arithmetic`. -/
theorem C10_u32_arithmetic_witness :
    Bet.calculate_payout ⟨BetType.StraightUp 17, 119304647⟩
      = 119304647 * 35 + 119304647
    ∧ Bet.calculate_payout ⟨BetType.Low, 100⟩
      = 100 * payout_multiplier BetType.Low + 100 := by
  exact ⟨C10_u32_arithmetic.2.1 119304647 (by decide),
    C10_u32_arithmetic.1 ⟨BetType.Low, 100⟩ (by decide)⟩

/-- For a nonzero winning number, a column bet with a valid index wins
exactly on the `number % 3 == column % 3` residue test. -/
theorem check_win_column_eq (c s : Nat) (p : Pocket) (hn : p.number ≠ 0)
    (hc : c = 1 ∨ c = 2 ∨ c = 3) :
    Bet.check_win ⟨BetType.Column c, s⟩ p = decide (p.number % 3 = c % 3) := by
  rcases hc with rfl | rfl | rfl <;>
    simp [Bet.check_win, hn, Nat.mod_self]

/-- Claim C3: for winning numbers 1–36, column `c ∈ {1,2,3}` wins iff
`number % 3 = c % 3` (column 1 ⇔ remainder 1, column 2 ⇔ remainder 2,
column 3 ⇔ remainder 0), and exactly one of the three column bets wins. -/
theorem C3_column_mapping (p : Pocket) (s : Nat)
    (h1 : 1 ≤ p.number) (h2 : p.number ≤ 36) :
    (∀ c, (c = 1 ∨ c = 2 ∨ c = 3) →
      (Bet.check_win ⟨BetType.Column c, s⟩ p = true ↔ p.number % 3 = c % 3))
    ∧ (∃ c, (c = 1 ∨ c = 2 ∨ c = 3) ∧ Bet.check_win ⟨BetType.Column c, s⟩ p = true
        ∧ ∀ c2, (c2 = 1 ∨ c2 = 2 ∨ c2 = 3) →
            Bet.check_win ⟨BetType.Column c2, s⟩ p = true → c2 = c) := by
  have hn : p.number ≠ 0 := by omega
  have hiff : ∀ c, (c = 1 ∨ c = 2 ∨ c = 3) →
      (Bet.check_win ⟨BetType.Column c, s⟩ p = true ↔ p.number % 3 = c % 3) := by
    intro c hc
    rw [check_win_column_eq c s p hn hc]
    simp
  refine ⟨hiff, ?_⟩
  have h3 : p.number % 3 < 3 := Nat.mod_lt _ (by omega)
  have huniq : ∀ c0, (c0 = 1 ∨ c0 = 2 ∨ c0 = 3) → p.number % 3 = c0 % 3 →
      ∃ c, (c = 1 ∨ c = 2 ∨ c = 3) ∧ Bet.check_win ⟨BetType.Column c, s⟩ p = true
        ∧ ∀ c2, (c2 = 1 ∨ c2 = 2 ∨ c2 = 3) →
            Bet.check_win ⟨BetType.Column c2, s⟩ p = true → c2 = c := by
    intro c0 hc0 hm
    refine ⟨c0, hc0, (hiff c0 hc0).mpr hm, ?_⟩
    intro c2 hc2 hw2
    have hm2 := (hiff c2 hc2).mp hw2
    rcases hc0 with rfl | rfl | rfl <;> rcases hc2 with rfl | rfl | rfl <;> omega
  rcases (show p.number % 3 = 0 ∨ p.number % 3 = 1 ∨ p.number % 3 = 2 by omega)
    with hm | hm | hm
  · exact huniq 3 (by tauto) (by omega)
  · exact huniq 1 (by tauto) (by omega)
  · exact huniq 2 (by tauto) (by omega)

/-- Closed instantiation of the hypotheses of `C3_column_mapping`. -/
theorem C3_column_mapping_witness :
    Bet.check_win ⟨BetType.Column 2, 5⟩
      ⟨"AAPL", "Apple Inc.", [], 17, Color.Black⟩ = true := by
  have h := C3_column_mapping ⟨"AAPL", "Apple Inc.", [], 17, Color.Black⟩ 5
    (by decide) (by decide)
  exact (h.1 2 (Or.inr (Or.inl rfl))).mpr (by decide)

/-- Claim C5: `place_bet` succeeds exactly when the stake is covered,
appending the bet to the ledger with the stake debited; on
insufficient funds it fails with the game state — ledger and balance —
fully unchanged. -/
theorem C5_place_bet_atomic (g : Game) (b : Bet) :
    (b.amount ≤ g.player.balance →
      (g.place_bet b).2 = true
      ∧ (g.place_bet b).1.current_bets = g.current_bets ++ [b]
      ∧ (g.place_bet b).1.player.balance = g.player.balance - b.amount)
    ∧ (g.player.balance < b.amount →
      (g.place_bet b).2 = false ∧ (g.place_bet b).1 = g) := by
  constructor
  · intro h
    have hlt : ¬ g.player.balance < b.amount := by omega
    simp [Game.place_bet, Player.place_bet, hlt]
  · intro h
    simp [Game.place_bet, Player.place_bet, h]

/-- Closed instantiation of the hypotheses of `C5_place_bet_atomic`. -/
theorem C5_place_bet_atomic_witness :
    (((Game.new 100).place_bet ⟨BetType.Red, 30⟩).2 = true
      ∧ ((Game.new 100).place_bet ⟨BetType.Red, 30⟩).1.player.balance = 70)
    ∧ (((Game.new 100).place_bet ⟨BetType.Odd, 101⟩).2 = false
      ∧ ((Game.new 100).place_bet ⟨BetType.Odd, 101⟩).1 = Game.new 100) := by
  have hs := (C5_place_bet_atomic (Game.new 100) ⟨BetType.Red, 30⟩).1 (by decide)
  have hf := (C5_place_bet_atomic (Game.new 100) ⟨BetType.Odd, 101⟩).2 (by decide)
  exact ⟨⟨hs.1, hs.2.2.trans (by decide)⟩, hf⟩

/-- Characterization of a fully successful placement sequence: the
bets are appended to the ledger in order, their total is covered by
the opening balance, and exactly that total has been debited. -/
theorem place_all_spec :
    ∀ (bets : List Bet) (g : Game), (g.place_all bets).2 = true →
      (g.place_all bets).1.current_bets = g.current_bets ++ bets
      ∧ stakesSum bets ≤ g.player.balance
      ∧ (g.place_all bets).1.player.balance = g.player.balance - stakesSum bets := by
  intro bets
  induction bets with
  | nil =>
    intro g _
    simp [Game.place_all, stakesSum]
  | cons b rest ih =>
    intro g h
    by_cases hb : g.player.balance < b.amount
    · exfalso
      simp [Game.place_all, Game.place_bet, Player.place_bet, hb] at h
    · have hstep : g.place_all (b :: rest)
          = (({ player := ⟨g.player.balance - b.amount⟩,
                current_bets := g.current_bets ++ [b] } : Game).place_all rest) := by
        simp [Game.place_all, Game.place_bet, Player.place_bet, hb]
      rw [hstep] at h ⊢
      obtain ⟨h1, h2, h3⟩ := ih _ h
      simp only [stakesSum, List.map_cons, List.sum_cons] at *
      refine ⟨?_, by omega, ?_⟩
      · rw [h1]; simp
      · rw [h3]
        show g.player.balance - b.amount - stakesSum rest
            = g.player.balance - (b.amount + stakesSum rest)
        omega

/-- The `u32` winnings fold computes the exact winnings sum whenever
that sum (plus the starting accumulator) fits in `u32`. -/
theorem round_winnings_fold_exact (p : Pocket) :
    ∀ (bets : List Bet) (acc : Nat),
      acc + winningsExact bets p < U32MOD →
      bets.foldl
        (fun acc b =>
          if b.check_win p then (acc + b.calculate_payout) % U32MOD else acc)
        acc
      = acc + winningsExact bets p := by
  intro bets
  induction bets with
  | nil =>
    intro acc _
    simp [winningsExact]
  | cons b rest ih =>
    intro acc h
    cases hw : b.check_win p with
    | false =>
      have hx : winningsExact (b :: rest) p = winningsExact rest p := by
        simp [winningsExact, hw]
      rw [hx] at h ⊢
      simpa [hw] using ih acc h
    | true =>
      have hx : winningsExact (b :: rest) p
          = payoutExact b + winningsExact rest p := by
        simp [winningsExact, hw]
      rw [hx] at h ⊢
      have hpe : b.calculate_payout = payoutExact b := by
        unfold Bet.calculate_payout payoutExact at *
        exact Nat.mod_eq_of_lt (by omega)
      have hacc : (acc + b.calculate_payout) % U32MOD = acc + payoutExact b := by
        rw [hpe]
        exact Nat.mod_eq_of_lt (by omega)
      have := ih (acc + payoutExact b) (by omega)
      simp only [List.foldl_cons, hw, if_pos, hacc]
      rw [this]
      omega

/-- `round_winnings` equals the exact winnings sum whenever it fits in
`u32`. -/
theorem round_winnings_exact (bets : List Bet) (p : Pocket)
    (h : winningsExact bets p < U32MOD) :
    round_winnings bets p = winningsExact bets p := by
  have := round_winnings_fold_exact p bets 0 (by omega)
  simpa [round_winnings] using this

/-- The `u32` stake fold computes the exact stake sum whenever that sum
(plus the starting accumulator) fits in `u32`. -/
theorem total_staked_fold_exact :
    ∀ (bets : List Bet) (acc : Nat), acc + stakesSum bets < U32MOD →
      bets.foldl (fun acc b => (acc + b.amount) % U32MOD) acc
        = acc + stakesSum bets := by
  intro bets
  induction bets with
  | nil =>
    intro acc _
    simp [stakesSum]
  | cons b rest ih =>
    intro acc h
    simp only [stakesSum, List.map_cons, List.sum_cons] at h ⊢
    have hacc : (acc + b.amount) % U32MOD = acc + b.amount :=
      Nat.mod_eq_of_lt (by omega)
    simp only [List.foldl_cons, hacc]
    have := ih (acc + b.amount) (by simp only [stakesSum]; omega)
    simp only [stakesSum] at this
    rw [this]
    omega

/-- `total_staked` equals the exact stake sum whenever it fits in
`u32`. -/
theorem total_staked_exact (bets : List Bet) (h : stakesSum bets < U32MOD) :
    total_staked bets = stakesSum bets := by
  have := total_staked_fold_exact bets 0 (by omega)
  simpa [total_staked] using this

/-- Claim C4: resolution conservation. Start from any balance, place
any sequence of bets that all succeed, then resolve against any drawn
pocket: the final balance is the starting balance minus the total
wagered plus the total winnings (sum of exact payouts of the winning
bets, credited only when positive), and the ledger is cleared for the
next round. Stated under the `u32` no-wrap bound on the credited
total. -/
theorem C4_resolution_conservation (B : Nat) (bets : List Bet) (p : Pocket)
    (hW : B + winningsExact bets p < U32MOD)
    (hok : ((Game.new B).place_all bets).2 = true) :
    (((Game.new B).place_all bets).1.spin_wheel_and_resolve p).player.balance
      = B - stakesSum bets + winningsExact bets p
    ∧ (((Game.new B).place_all bets).1.spin_wheel_and_resolve p).current_bets
      = [] := by
  obtain ⟨h1, h2, h3⟩ := place_all_spec bets (Game.new B) hok
  have h1' : ((Game.new B).place_all bets).1.current_bets = bets := by
    simpa [Game.new] using h1
  have h2' : stakesSum bets ≤ B := h2
  have h3' : ((Game.new B).place_all bets).1.player.balance
      = B - stakesSum bets := h3
  cases bets with
  | nil =>
    rw [spin_wheel_and_resolve_empty _ p h1']
    simp only [h1', h3', stakesSum, winningsExact]
    simp
  | cons b rest =>
    have hne : ((Game.new B).place_all (b :: rest)).1.current_bets.isEmpty
        = false := by
      rw [h1']; rfl
    have hWlt : winningsExact (b :: rest) p < U32MOD := by omega
    have hrw : round_winnings ((Game.new B).place_all (b :: rest)).1.current_bets p
        = winningsExact (b :: rest) p := by
      rw [h1']; exact round_winnings_exact _ p hWlt
    unfold Game.spin_wheel_and_resolve
    rw [hne]
    simp only [Bool.false_eq_true, if_false, hrw]
    by_cases hpos : 0 < winningsExact (b :: rest) p
    · rw [if_pos hpos]
      refine ⟨?_, trivial⟩
      show (((Game.new B).place_all (b :: rest)).1.player.balance
          + winningsExact (b :: rest) p) % U32MOD
        = B - stakesSum (b :: rest) + winningsExact (b :: rest) p
      rw [h3']
      exact Nat.mod_eq_of_lt (by omega)
    · rw [if_neg hpos]
      refine ⟨?_, trivial⟩
      show ((Game.new B).place_all (b :: rest)).1.player.balance
        = B - stakesSum (b :: rest) + winningsExact (b :: rest) p
      rw [h3']
      omega

/-- Closed instantiation of the hypotheses of
`C4_resolution_conservation`: the spec scenario — balance 1000, a
straight-up bet on 17 for 100, outcome 17 — ends at balance 4500. -/
theorem C4_resolution_conservation_witness :
    ((((Game.new 1000).place_all [⟨BetType.StraightUp 17, 100⟩]).1.spin_wheel_and_resolve
        ⟨"MA", "Mastercard Inc.", [], 17, Color.Black⟩).player.balance = 4500)
    ∧ (((Game.new 1000).place_all [⟨BetType.StraightUp 17, 100⟩]).1.spin_wheel_and_resolve
        ⟨"MA", "Mastercard Inc.", [], 17, Color.Black⟩).current_bets = [] := by
  have h := C4_resolution_conservation 1000 [⟨BetType.StraightUp 17, 100⟩]
    ⟨"MA", "Mastercard Inc.", [], 17, Color.Black⟩ (by decide) (by decide)
  exact ⟨h.1.trans (by decide), h.2⟩

/-- Claim C6: clearing refunds the full staked total and empties the
ledger (under the `u32` no-wrap bound); placing any successful
sequence of bets and then clearing restores the prior balance exactly
and leaves the staked total at 0; clearing an empty ledger changes
nothing. -/
theorem C6_clear_refund_round_trip :
    (∀ g : Game, g.current_bets = [] → g.clear_bets = g)
    ∧ (∀ g : Game, g.player.balance + stakesSum g.current_bets < U32MOD →
        g.clear_bets.player.balance
          = g.player.balance + stakesSum g.current_bets
        ∧ g.clear_bets.current_bets = [])
    ∧ (∀ (B : Nat) (bets : List Bet), B < U32MOD →
        ((Game.new B).place_all bets).2 = true →
        (((Game.new B).place_all bets).1.clear_bets).player.balance = B
        ∧ total_staked ((((Game.new B).place_all bets).1.clear_bets).current_bets)
          = 0) := by
  have hclear : ∀ g : Game, g.player.balance + stakesSum g.current_bets < U32MOD →
      g.clear_bets.player.balance = g.player.balance + stakesSum g.current_bets
      ∧ g.clear_bets.current_bets = [] := by
    intro g hlt
    by_cases hne : g.current_bets.isEmpty = true
    · have hnil : g.current_bets = [] := by
        cases h : g.current_bets with
        | nil => rfl
        | cons x xs => rw [h] at hne; simp at hne
      have hcb : g.clear_bets = g := by
        unfold Game.clear_bets; rw [if_pos hne]
      rw [hcb, hnil]
      simp [stakesSum]
    · have hcb : g.clear_bets
          = { player := g.player.refund_bet (total_staked g.current_bets),
              current_bets := [] } := by
        unfold Game.clear_bets; rw [if_neg hne]
      rw [hcb]
      have hSt : stakesSum g.current_bets < U32MOD := by omega
      refine ⟨?_, rfl⟩
      show (g.player.balance + total_staked g.current_bets) % U32MOD
        = g.player.balance + stakesSum g.current_bets
      rw [total_staked_exact _ hSt]
      exact Nat.mod_eq_of_lt hlt
  refine ⟨?_, hclear, ?_⟩
  · intro g h
    simp [Game.clear_bets, h]
  · intro B bets hB hok
    obtain ⟨h1, h2, h3⟩ := place_all_spec bets (Game.new B) hok
    have h1' : ((Game.new B).place_all bets).1.current_bets = bets := by
      simpa [Game.new] using h1
    have h2' : stakesSum bets ≤ B := h2
    have h3' : ((Game.new B).place_all bets).1.player.balance
        = B - stakesSum bets := h3
    obtain ⟨hbal, hemp⟩ := hclear ((Game.new B).place_all bets).1
      (by rw [h1', h3']; omega)
    rw [hbal, h1', h3', hemp]
    constructor
    · omega
    · rfl

/-- Closed instantiation of the hypotheses of
`C6_clear_refund_round_trip`. -/
theorem C6_clear_refund_round_trip_witness :
    ((Game.new 7).clear_bets = Game.new 7)
    ∧ ((((Game.new 1000).place_all
          [⟨BetType.Red, 50⟩, ⟨BetType.Low, 50⟩]).1.clear_bets).player.balance
        = 1000) := by
  exact ⟨C6_clear_refund_round_trip.1 (Game.new 7) rfl,
    (C6_clear_refund_round_trip.2.2 1000 [⟨BetType.Red, 50⟩, ⟨BetType.Low, 50⟩]
      (by decide) (by decide)).1⟩

/-- `Wheel::new` applied to the 37 configured definitions succeeds and
yields the constructed pocket list. -/
theorem wheel_new_eq : Wheel.new = some ⟨build_pockets get_pocket_definitions⟩ :=
  rfl

/-- Claim C9: the wheel construction aborts whenever the configured
definitions do not total exactly 37; with the configured definitions it
succeeds, and the resulting wheel holds exactly 37 pockets with
pairwise distinct numbers covering `[0,36]`, a pocket is `Green` iff
its number is 0, and lookup by number misses iff the number is outside
`[0,36]`. -/
theorem C9_wheel_invariants :
    (∀ defs : List Pocket, defs.length ≠ 37 → Wheel.newFrom defs = none)
    ∧ Wheel.new.isSome = true
    ∧ (∀ w : Wheel, Wheel.new = some w →
        w.pockets.length = 37
        ∧ (w.pockets.map Pocket.number).Nodup
        ∧ (∀ n, n ∈ w.pockets.map Pocket.number ↔ n ≤ 36)
        ∧ (∀ p ∈ w.pockets, (p.color = Color.Green ↔ p.number = 0))
        ∧ (∀ n, w.get_pocket n = none ↔ 36 < n)) := by
  refine ⟨?_, rfl, ?_⟩
  · intro defs h
    simp [Wheel.newFrom, h]
  · intro w hw
    rw [wheel_new_eq] at hw
    obtain rfl := (Option.some_inj.mp hw).symm
    have hbound : ∀ x ∈ build_pockets get_pocket_definitions, x.number ≤ 36 := by
      decide
    have hcover : ∀ m, m < 37 →
        ∃ x ∈ build_pockets get_pocket_definitions, x.number = m := by
      decide
    refine ⟨by decide, by decide, ?_, by decide, ?_⟩
    · intro n
      simp only [List.mem_map]
      constructor
      · rintro ⟨x, hx, rfl⟩
        exact hbound x hx
      · intro hn
        obtain ⟨x, hx, hxn⟩ := hcover n (by omega)
        exact ⟨x, hx, hxn⟩
    · intro n
      rw [Wheel.get_pocket, List.find?_eq_none]
      constructor
      · intro h
        by_contra hn
        obtain ⟨x, hx, hxn⟩ := hcover n (by omega)
        exact (h x hx) (by simp [hxn])
      · intro h x hx
        simp only [beq_iff_eq]
        intro heq
        have := hbound x hx
        omega

/-- Closed instantiation of the hypotheses of `C9_wheel_invariants`. -/
theorem C9_wheel_invariants_witness :
    Wheel.newFrom [] = none
    ∧ (Wheel.mk (build_pockets get_pocket_definitions)).pockets.length = 37 := by
  exact ⟨C9_wheel_invariants.1 [] (by decide),
    (C9_wheel_invariants.2.2 ⟨build_pockets get_pocket_definitions⟩ wheel_new_eq).1⟩

end Roulette
